import Mathlib

/-!
# Pylon Agent Gateway — verification of the gateway subsystem

Shallow embedding of the gateway code (`src/gateway-api/`): the payment
replay set and x402 payment check, the usage-query authorization, the
dispatcher's parameter extraction and validation, the reliability layer's
retry policy, the discovery pricing, and the orchestrator's chain
execution.  JavaScript numbers used for money are modelled as rationals;
machine timestamps as naturals; the sha256 hex digest of a payment header
is treated as an opaque list of hex nibbles supplied by an abstract hash
function.  Outbound HTTP calls (facilitator, backends, marketplace) are
modelled as oracle parameters giving their outcomes.
-/

namespace Pylon

/-- A JSON-ish parameter value, as stored in the `params` objects the
gateway builds and forwards to backends. -/
inductive Value
  | vStr (s : String)
  | vNat (n : Nat)
  | vBool (b : Bool)
  deriving DecidableEq, Repr

/-- JavaScript truthiness for a possibly-absent parameter value:
`undefined`, `""`, `0` and `false` are falsy. -/
def isTruthy : Option Value → Bool
  | none => false
  | some (.vStr s) => !(s == "")
  | some (.vNat n) => !(n == 0)
  | some (.vBool b) => b

/-- Parameter objects: association lists keyed by parameter name, in
insertion order (mirrors a JS object as iterated by `Object.entries`). -/
abbrev Params := List (String × Value)

/-- `params[k]` — property read on a JS object. -/
def getP (l : Params) (k : String) : Option Value := l.lookup k

/-- `params[k] = v` — property write on a JS object: overwrite in place if
the key exists, otherwise append. -/
def setP (l : Params) (k : String) (v : Value) : Params :=
  if (l.lookup k).isSome then
    l.map (fun kv => if kv.1 = k then (k, v) else kv)
  else l ++ [(k, v)]

/-- `haystack.includes(needle)` on JS strings. -/
def strIncludes (haystack needle : String) : Bool :=
  go haystack.toList needle.toList
where
  /-- Does `n` occur as a contiguous substring of `h`? -/
  go (h n : List Char) : Bool :=
    isPre n h || match h with
      | [] => false
      | _ :: t => go t n
  /-- Is `n` a prefix of `h`? -/
  isPre (n h : List Char) : Bool :=
    match n, h with
    | [], _ => true
    | _ :: _, [] => false
    | a :: ns, b :: hs => a == b && isPre ns hs

/-- One entry of a capability's `inputSchema`: the fields of the schema
object that the gateway code reads (`description`, `required`, `default`). -/
structure FieldSchema where
  description : Option String := none
  required : Bool := false
  default : Option Value := none
  deriving DecidableEq, Repr

/-- A capability's `inputSchema` as iterated by `Object.entries`:
parameter name ↦ field schema, in declaration order. -/
abbrev InputSchema := List (String × FieldSchema)

/-- `capability.inputSchema.k` is truthy (the key is declared; schema
entries are objects, hence truthy when present). -/
def schemaHas (schema : InputSchema) (k : String) : Bool :=
  (schema.lookup k).isSome

/-- A capability record, with the fields of `capabilities.json` entries
that the verified slices read.  The `cost` string `"$x"` is modelled by
the rational `x` it parses to (`parseFloat(cost.replace("$", ""))`). -/
structure Capability where
  id : String
  cost : ℚ
  inputSchema : InputSchema

/-! ## Discovery pricing (`discovery.js`, `normalizeResults`) -/

/-- `DEFAULT_MARKUP = 1.0` — 100% markup (double the provider price). -/
def DEFAULT_MARKUP : ℚ := 1

/-- `normalizeResults`: `pylonCost = Math.max(providerCost * (1 + DEFAULT_MARKUP),
providerCost + 0.005)` (`discovery.js` line 80). -/
def pylonCostRaw (providerCost : ℚ) : ℚ :=
  max (providerCost * (1 + DEFAULT_MARKUP)) (providerCost + 5/1000)

/-- `roundedPylonCost = Math.ceil(pylonCost * 1000) / 1000` — round up to
the nearest $0.001 (`discovery.js` line 81). -/
def roundedPylonCost (providerCost : ℚ) : ℚ :=
  (⌈pylonCostRaw providerCost * 1000⌉ : ℚ) / 1000

/-- The pricing fields of the capability-shaped record built by
`normalizeResults` and installed by `activateDiscovered` (which copies
`pylonCost` into the activated capability's `cost`). -/
structure DiscoveredPricing where
  providerCost : ℚ
  pylonCost : ℚ
  pylonFee : ℚ

/-- Pricing part of `normalizeResults` (`discovery.js` lines 79–90):
`providerCost`, `pylonCost` (the gateway cost charged), and
`pylonFee = roundedPylonCost - providerCost`. -/
def normalizePricing (providerCost : ℚ) : DiscoveredPricing :=
  { providerCost := providerCost
    pylonCost := roundedPylonCost providerCost
    pylonFee := roundedPylonCost providerCost - providerCost }

/-! ## Payment replay identifiers (`server.js`, `isReplayedPayment`) -/

/-- A sha256 hex digest, as a list of hex nibbles (each hex character
carries 4 bits; a full digest has 64 of them). -/
abbrev Digest := List (Fin 16)

/-- The replay identifier of a payment header:
`createHash("sha256").update(h).digest("hex").slice(0, 16)` — the first
16 hex characters (64 bits) of the digest (`server.js` line 327). -/
def nonceId (digest : Digest) : Digest := List.take 16 digest

/-- The `paymentNonces` map: replay identifier ↦ insertion timestamp, in
insertion order (a JS `Map`). -/
abbrev NonceMap := List (Digest × Nat)

/-- `NONCE_TTL = 300_000` ms — 5 minutes. -/
def NONCE_TTL : Nat := 300000

/-- The stale-nonce sweep inside `isReplayedPayment` (`server.js` lines
330–334): delete every entry with `now - t > NONCE_TTL`.  The sweep runs
on a `Math.random() < 0.01` draw; the draw's outcome is the `sweep` flag
passed to `isReplayedPayment`. -/
def sweepNonces (now : Nat) (m : NonceMap) : NonceMap :=
  m.filter (fun kt => !(now - kt.2 > NONCE_TTL))

/-- `isReplayedPayment` (`server.js` lines 325–338): hash the payment
header and keep the first 16 hex characters, optionally sweep stale
nonces, answer whether that identifier was already seen — and when it was
not, record it as seen with the current timestamp.  `hash` abstracts
sha256 as an opaque digest function.  Returns `(replayed?, updated map)`. -/
def isReplayedPayment (hash : String → Digest) (sweep : Bool) (now : Nat)
    (paymentHeader : String) (m : NonceMap) : Bool × NonceMap :=
  let h := nonceId (hash paymentHeader)
  let m1 := if sweep then sweepNonces now m else m
  if (m1.lookup h).isSome then (true, m1)
  else (false, m1 ++ [(h, now)])

/-! ## x402 payment check (`server.js`, `x402PaymentCheck`) -/

/-- Outcome of the facilitator `/verify` roundtrip: 2xx, non-2xx, or a
transport error (the `fetch` threw). -/
inductive FacilitatorResult
  | ok
  | reject
  | transportError
  deriving DecidableEq, Repr

/-- What the payment middleware did with the request. -/
inductive PayOutcome
  /-- `next()` was called; when a header was verified, `_paymentPayload`
  carries it. -/
  | proceed (paymentPayload : Option String)
  /-- 402 with the payment-requirements body (no payment header). -/
  | required402
  /-- 402 "Payment already used. Submit a new payment." -/
  | replay402
  /-- 402 "Payment verification failed" (facilitator non-2xx). -/
  | verifyFailed402
  /-- 500 "Payment verification failed" (facilitator transport error). -/
  | error500
  deriving DecidableEq, Repr

/-- Gateway configuration read by the payment middleware: the test-bypass
key (`none` when unset/empty) and the allow-listed test peer IPs. -/
structure GatewayConfig where
  testBypassKey : Option String
  allowedTestIps : List String

/-- The request fields the payment middleware reads. -/
structure PayRequest where
  testKey : Option String
  ip : String
  paymentHeader : Option String

/-- The test-bypass gate (`server.js` lines 343–349): key configured,
header matches, and the peer is allow-listed or on the Fly internal
overlay (`fdaa:` prefix).  A matching key from elsewhere falls through to
payment. -/
def bypassGranted (cfg : GatewayConfig) (req : PayRequest) : Bool :=
  match cfg.testBypassKey with
  | none => false
  | some k =>
    req.testKey == some k &&
      (cfg.allowedTestIps.contains req.ip || req.ip.startsWith "fdaa:")

/-- `x402PaymentCheck` (`server.js` lines 341–421): bypass check, missing
header → 402 requirements, replay check (which records the identifier),
then facilitator verification.  `fac` is the oracle outcome of the
facilitator roundtrip.  Returns the middleware outcome and the resulting
replay set. -/
def x402PaymentCheck (cfg : GatewayConfig) (hash : String → Digest)
    (sweep : Bool) (now : Nat) (req : PayRequest) (fac : FacilitatorResult)
    (m : NonceMap) : PayOutcome × NonceMap :=
  if bypassGranted cfg req then (.proceed none, m)
  else
    match req.paymentHeader with
    | none => (.required402, m)
    | some hdr =>
      match isReplayedPayment hash sweep now hdr m with
      | (true, m1) => (.replay402, m1)
      | (false, m1) =>
        match fac with
        | .ok => (.proceed (some hdr), m1)
        | .reject => (.verifyFailed402, m1)
        | .transportError => (.error500, m1)

/-! ### Association-list helper lemmas for the replay set -/

/-- Appending a fresh key to an association list makes it found. -/
theorem lookup_append_fresh {α β : Type _} [BEq α] [LawfulBEq α]
    (l : List (α × β)) (k : α) (v : β) (h : l.lookup k = none) :
    (l ++ [(k, v)]).lookup k = some v := by
  induction l with
  | nil => simp [List.lookup]
  | cons a t ih =>
    obtain ⟨k', v'⟩ := a
    simp only [List.cons_append, List.lookup] at h ⊢
    cases hbeq : k == k' with
    | true => simp [hbeq] at h
    | false =>
      simp only [hbeq] at h ⊢
      exact ih h

/-- Filtering cannot make an absent key present. -/
theorem lookup_filter_none {α β : Type _} [BEq α]
    (p : α × β → Bool) (l : List (α × β)) (k : α) (h : l.lookup k = none) :
    (l.filter p).lookup k = none := by
  induction l with
  | nil => simp
  | cons a t ih =>
    obtain ⟨k', v'⟩ := a
    simp only [List.lookup] at h
    cases hbeq : k == k' with
    | true => simp [hbeq] at h
    | false =>
      simp only [hbeq] at h
      by_cases hp : p (k', v') = true
      · simp only [List.filter_cons, hp, if_true, List.lookup, hbeq]
        exact ih h
      · simp only [List.filter_cons, hp, if_false]
        exact ih h

/-- A freshly appended entry that passes a filter is still found after
that filter. -/
theorem lookup_filter_append_fresh {α β : Type _} [BEq α] [LawfulBEq α]
    (p : α × β → Bool) (l : List (α × β)) (k : α) (v : β)
    (h : l.lookup k = none) (hp : p (k, v) = true) :
    ((l ++ [(k, v)]).filter p).lookup k = some v := by
  rw [List.filter_append]
  have h2 : List.filter p [(k, v)] = [(k, v)] := by simp [List.filter, hp]
  rw [h2]
  exact lookup_append_fresh _ _ _ (lookup_filter_none p l k h)

end Pylon

/-! ## C7 — discovered gateway cost bounds -/

/-- C7: for every discovered capability activated from a marketplace
result with provider cost `p`, the gateway cost satisfies
`gatewayCost ≥ max(2·p, p + 0.005)`, is an integral multiple of $0.001,
and is exactly `max(2·p, p + 0.005)` rounded up to the nearest $0.001. -/
theorem C7_discovered_cost_bounds (p : ℚ) :
    (Pylon.normalizePricing p).pylonCost ≥ max (2 * p) (p + 5/1000) ∧
    (∃ n : ℤ, (Pylon.normalizePricing p).pylonCost = (n : ℚ) / 1000) ∧
    (Pylon.normalizePricing p).pylonCost =
      (⌈max (2 * p) (p + 5/1000) * 1000⌉ : ℚ) / 1000 := by
  have hmax : Pylon.pylonCostRaw p = max (2 * p) (p + 5/1000) := by
    unfold Pylon.pylonCostRaw Pylon.DEFAULT_MARKUP
    ring_nf
  refine ⟨?_, ⟨⌈Pylon.pylonCostRaw p * 1000⌉, rfl⟩, ?_⟩
  · show Pylon.roundedPylonCost p ≥ _
    rw [← hmax]
    unfold Pylon.roundedPylonCost
    have hle : Pylon.pylonCostRaw p * 1000 ≤ (⌈Pylon.pylonCostRaw p * 1000⌉ : ℚ) :=
      Int.le_ceil _
    linarith
  · show Pylon.roundedPylonCost p = _
    unfold Pylon.roundedPylonCost
    rw [hmax]

/-! ## C6 — replay identifier width -/

/-- C6 counterexample: two payment proofs whose hashes agree on the first
64 bits (16 hex characters) but disagree within the first 128 bits
collide in the replay set, so collision is not equivalent to equality of
the first 128 bits of the hashes. -/
theorem C6_counterexample :
    ¬ ((Pylon.isReplayedPayment
          (fun s => if s == "p1" then List.replicate 64 (0 : Fin 16)
            else List.replicate 16 (0 : Fin 16) ++ List.replicate 48 (1 : Fin 16))
          false 0 "p2"
          (Pylon.isReplayedPayment
            (fun s => if s == "p1" then List.replicate 64 (0 : Fin 16)
              else List.replicate 16 (0 : Fin 16) ++ List.replicate 48 (1 : Fin 16))
            false 0 "p1" []).2).1 = true ↔
        List.take 32 ((fun (s : String) => if s == "p1" then List.replicate 64 (0 : Fin 16)
          else List.replicate 16 (0 : Fin 16) ++ List.replicate 48 (1 : Fin 16)) "p2") =
        List.take 32 ((fun (s : String) => if s == "p1" then List.replicate 64 (0 : Fin 16)
          else List.replicate 16 (0 : Fin 16) ++ List.replicate 48 (1 : Fin 16)) "p1")) := by
  decide

/-- C6 amended: the payment-proof replay identifier is the first 64 bits
(16 hex characters) of the proof's hash: after one proof is recorded in
an empty replay set, a second proof is flagged as a replay exactly when
the first 16 hex characters of the two hashes coincide. -/
theorem C6_collision_iff_first_64_bits (hash : String → Pylon.Digest)
    (hdr1 hdr2 : String) (now1 now2 : Nat) :
    (Pylon.isReplayedPayment hash false now2 hdr2
      (Pylon.isReplayedPayment hash false now1 hdr1 []).2).1 = true ↔
    Pylon.nonceId (hash hdr2) = Pylon.nonceId (hash hdr1) := by
  have h1 : (Pylon.isReplayedPayment hash false now1 hdr1 []).2 =
      [(Pylon.nonceId (hash hdr1), now1)] := by
    simp [Pylon.isReplayedPayment, List.lookup]
  rw [h1]
  unfold Pylon.isReplayedPayment
  simp only [if_false, Bool.false_eq_true, List.lookup]
  cases hbeq : Pylon.nonceId (hash hdr2) == Pylon.nonceId (hash hdr1) with
  | true =>
    simp only [hbeq, Option.isSome_some, if_true]
    simpa using (beq_iff_eq.mp hbeq)
  | false =>
    simp only [hbeq, Option.isSome_none, if_false]
    constructor
    · intro h
      simp at h
    · intro h
      exact absurd (beq_iff_eq.mpr h) (by simp [hbeq])

/-! ## C2 — replay-set mutation on failed verification -/

/-- C2 counterexample: starting from an empty replay set, a dispatch whose
facilitator verification is rejected ends with a non-empty replay set —
the replay-set state is changed by a failed payment verification. -/
theorem C2_counterexample :
    (Pylon.x402PaymentCheck ⟨none, []⟩ (fun _ => List.replicate 64 (0 : Fin 16))
      false 1000 ⟨none, "203.0.113.7", some "proof-token"⟩ .reject []).1 =
        .verifyFailed402 ∧
    (Pylon.x402PaymentCheck ⟨none, []⟩ (fun _ => List.replicate 64 (0 : Fin 16))
      false 1000 ⟨none, "203.0.113.7", some "proof-token"⟩ .reject []).2 ≠ [] := by
  decide

/-- C2 amended: the proof identifier is inserted into the replay set
during the replay check itself, before the facilitator is contacted, so a
fresh proof ends up recorded in the replay set whatever the facilitator
answers — including rejection and transport failure. -/
theorem C2_inserted_regardless_of_verification (cfg : Pylon.GatewayConfig)
    (hash : String → Pylon.Digest) (sweep : Bool) (now : Nat)
    (req : Pylon.PayRequest) (hdr : String) (fac : Pylon.FacilitatorResult)
    (m : Pylon.NonceMap)
    (hbyp : Pylon.bypassGranted cfg req = false)
    (hhdr : req.paymentHeader = some hdr)
    (hnew : ((if sweep then Pylon.sweepNonces now m else m).lookup
      (Pylon.nonceId (hash hdr))) = none) :
    ((Pylon.x402PaymentCheck cfg hash sweep now req fac m).2).lookup
      (Pylon.nonceId (hash hdr)) = some now := by
  unfold Pylon.x402PaymentCheck
  rw [hbyp]
  simp only [Bool.false_eq_true, if_false, hhdr]
  unfold Pylon.isReplayedPayment
  simp only [hnew, Option.isSome_none, Bool.false_eq_true, if_false]
  cases fac <;>
    exact Pylon.lookup_append_fresh _ _ _ hnew

/-- Witness for the amended C2 at a concrete request, state and clock. -/
theorem C2_inserted_regardless_of_verification_witness :
    ((Pylon.x402PaymentCheck ⟨none, []⟩ (fun _ => List.replicate 64 (0 : Fin 16))
      false 5 ⟨none, "198.51.100.2", some "tok"⟩ .reject []).2).lookup
      (Pylon.nonceId ((fun (_ : String) => List.replicate 64 (0 : Fin 16)) "tok")) =
      some 5 :=
  C2_inserted_regardless_of_verification ⟨none, []⟩
    (fun _ => List.replicate 64 (0 : Fin 16)) false 5
    ⟨none, "198.51.100.2", some "tok"⟩ "tok" .reject [] (by decide) rfl (by decide)

/-! ## C10 — a proof is marked seen before the facilitator is contacted -/

/-- C10: a payment proof is recorded in the replay set at replay-check
time, before the facilitator roundtrip; hence when verification fails on
a fresh proof (402 "verification failed"), resubmitting the identical
proof with the replay TTL not yet elapsed is rejected as a replay
("payment already used") without consulting the facilitator — the second
outcome is `replay402` for every facilitator answer. -/
theorem C10_failed_verification_then_replay (cfg : Pylon.GatewayConfig)
    (hash : String → Pylon.Digest) (sweep1 sweep2 : Bool) (now1 now2 : Nat)
    (req1 req2 : Pylon.PayRequest) (hdr : String)
    (fac2 : Pylon.FacilitatorResult) (m0 : Pylon.NonceMap)
    (hb1 : Pylon.bypassGranted cfg req1 = false)
    (hb2 : Pylon.bypassGranted cfg req2 = false)
    (h1 : req1.paymentHeader = some hdr)
    (h2 : req2.paymentHeader = some hdr)
    (hnew : ((if sweep1 then Pylon.sweepNonces now1 m0 else m0).lookup
      (Pylon.nonceId (hash hdr))) = none)
    (httl : now2 - now1 ≤ Pylon.NONCE_TTL) :
    (Pylon.x402PaymentCheck cfg hash sweep1 now1 req1 .reject m0).1 =
      .verifyFailed402 ∧
    (Pylon.x402PaymentCheck cfg hash sweep2 now2 req2 fac2
      (Pylon.x402PaymentCheck cfg hash sweep1 now1 req1 .reject m0).2).1 =
      .replay402 := by
  have hstate : (Pylon.x402PaymentCheck cfg hash sweep1 now1 req1 .reject m0).2 =
      (if sweep1 then Pylon.sweepNonces now1 m0 else m0) ++
        [(Pylon.nonceId (hash hdr), now1)] := by
    unfold Pylon.x402PaymentCheck
    rw [hb1]
    simp only [Bool.false_eq_true, if_false, h1]
    unfold Pylon.isReplayedPayment
    simp only [hnew, Option.isSome_none, Bool.false_eq_true, if_false]
  have hout1 : (Pylon.x402PaymentCheck cfg hash sweep1 now1 req1 .reject m0).1 =
      .verifyFailed402 := by
    unfold Pylon.x402PaymentCheck
    rw [hb1]
    simp only [Bool.false_eq_true, if_false, h1]
    unfold Pylon.isReplayedPayment
    simp only [hnew, Option.isSome_none, Bool.false_eq_true, if_false]
  refine ⟨hout1, ?_⟩
  rw [hstate]
  unfold Pylon.x402PaymentCheck
  rw [hb2]
  simp only [Bool.false_eq_true, if_false, h2]
  unfold Pylon.isReplayedPayment
  have hfound : ((if sweep2 then
      Pylon.sweepNonces now2 ((if sweep1 then Pylon.sweepNonces now1 m0 else m0) ++
        [(Pylon.nonceId (hash hdr), now1)])
    else (if sweep1 then Pylon.sweepNonces now1 m0 else m0) ++
        [(Pylon.nonceId (hash hdr), now1)]).lookup
      (Pylon.nonceId (hash hdr))).isSome = true := by
    cases sweep2 with
    | false =>
      simp only [Bool.false_eq_true, if_false]
      rw [Pylon.lookup_append_fresh _ _ _ hnew]
      rfl
    | true =>
      simp only [if_true]
      rw [show (if sweep1 = true then Pylon.sweepNonces now1 m0 else m0) =
        (if sweep1 then Pylon.sweepNonces now1 m0 else m0) from rfl] at hnew ⊢
      generalize hX : (if sweep1 then Pylon.sweepNonces now1 m0 else m0) = X
        at hnew ⊢
      unfold Pylon.sweepNonces
      rw [Pylon.lookup_filter_append_fresh _ X _ _ hnew
        (by simp [Nat.not_lt.mpr httl])]
      rfl
  simp only [hfound, if_true]

/-- Witness for C10 at a concrete proof, clock and facilitator answer. -/
theorem C10_failed_verification_then_replay_witness :
    (Pylon.x402PaymentCheck ⟨none, []⟩ (fun _ => List.replicate 64 (0 : Fin 16))
      true 100 ⟨none, "198.51.100.2", some "tok"⟩ .reject []).1 =
      .verifyFailed402 ∧
    (Pylon.x402PaymentCheck ⟨none, []⟩ (fun _ => List.replicate 64 (0 : Fin 16))
      true 200 ⟨none, "198.51.100.2", some "tok"⟩ .ok
      (Pylon.x402PaymentCheck ⟨none, []⟩ (fun _ => List.replicate 64 (0 : Fin 16))
        true 100 ⟨none, "198.51.100.2", some "tok"⟩ .reject []).2).1 =
      .replay402 :=
  C10_failed_verification_then_replay ⟨none, []⟩
    (fun _ => List.replicate 64 (0 : Fin 16)) true true 100 200
    ⟨none, "198.51.100.2", some "tok"⟩ ⟨none, "198.51.100.2", some "tok"⟩
    "tok" .ok [] (by decide) (by decide) rfl rfl (by decide) (by decide)

namespace Pylon

/-! ## Usage-query authorization (`server.js`, `usageAuth` and the
`/usage`, `/usage/capabilities`, `/usage/timeline` routes) -/

/-- JS `s.toLowerCase()`: lowercase the string character by character. -/
def lowerStr (s : String) : String := String.mk (s.data.map Char.toLower)

/-- JS truthiness of a possibly-absent string (absent or `""` is falsy). -/
def strTruthy : Option String → Bool
  | none => false
  | some s => !(s == "")

/-- JS `a || b` on possibly-absent strings. -/
def jsOr (a b : Option String) : Option String :=
  if strTruthy a then a else b

/-- The request fields read by `usageAuth` and the usage routes. -/
structure UsageRequest where
  testKey : Option String
  ip : String
  headerWallet : Option String
  queryWallet : Option String

/-- The usage-route bypass gate (`server.js` lines 759–763): test key
configured and matching, and the peer allow-listed or on the internal
overlay. -/
def usageBypassGranted (cfg : GatewayConfig) (req : UsageRequest) : Bool :=
  match cfg.testBypassKey with
  | none => false
  | some k =>
    req.testKey == some k &&
      (cfg.allowedTestIps.contains req.ip || req.ip.startsWith "fdaa:")

/-- What `usageAuth` decided (`server.js` lines 757–776): pass the request
on — carrying the possibly rewritten `req.query.wallet` — or refuse it. -/
inductive AuthDecision
  | proceed (queryWallet : Option String)
  | unauthorized
  | forbidden
  deriving DecidableEq, Repr

/-- `usageAuth`: internal/test peers pass through untouched; public
callers need a truthy `x-wallet-address` header (else 401); a truthy
query wallet differing case-insensitively from the header wallet is
refused (403); otherwise `req.query.wallet` is forced to the header
wallet and the request proceeds. -/
def usageAuth (cfg : GatewayConfig) (req : UsageRequest) : AuthDecision :=
  if usageBypassGranted cfg req then .proceed req.queryWallet
  else if strTruthy req.headerWallet = false then .unauthorized
  else
    match req.headerWallet with
    | none => .unauthorized
    | some hw =>
      if strTruthy req.queryWallet &&
          !(lowerStr (req.queryWallet.getD "") == lowerStr hw) then .forbidden
      else .proceed (some hw)

/-- Response of a usage route: aggregation data scoped to one wallet (the
`WHERE wallet_address = ?` argument of `getUsage` /
`getUsageByCapability` / `getSpendOverTime`), or an error. -/
inductive UsageResponse
  | data (scopedWallet : String)
  | unauthorized401
  | forbidden403
  | walletRequired400
  deriving DecidableEq, Repr

/-- The shared shape of the three usage routes (`server.js` lines
778–797): run `usageAuth`, then take
`wallet = req.query.wallet || req.headers["x-wallet-address"]`, fail 400
when falsy, else return the aggregation scoped to `wallet`.  The three
routes differ only in which aggregation runs on the scoped wallet. -/
def usageRoute (cfg : GatewayConfig) (req : UsageRequest) : UsageResponse :=
  match usageAuth cfg req with
  | .unauthorized => .unauthorized401
  | .forbidden => .forbidden403
  | .proceed qw =>
    let wallet := jsOr qw req.headerWallet
    match wallet with
    | none => .walletRequired400
    | some w => if w == "" then .walletRequired400 else .data w

end Pylon

/-! ## C3 — usage queries with a mismatched query wallet -/

/-- C3 counterexample: a usage query with header wallet `0xAAA` and query
wallet `0xBBB` is rejected with 403 — the gateway does not rewrite the
mismatched query wallet and does not return data scoped to the header
wallet. -/
theorem C3_counterexample :
    Pylon.usageRoute ⟨none, []⟩ ⟨none, "198.51.100.2", some "0xAAA", some "0xBBB"⟩ =
      .forbidden403 ∧
    Pylon.usageRoute ⟨none, []⟩ ⟨none, "198.51.100.2", some "0xAAA", some "0xBBB"⟩ ≠
      .data "0xAAA" := by
  decide

/-- C3 amended: for public usage queries (no test bypass) with header
wallet `A` and query wallet `B`, a `B` differing from `A`
case-insensitively is rejected with 403 and no data is returned; a `B`
equal to `A` up to case is rewritten to `A` and the aggregation returned
is scoped to `A`.  Data scoped to a wallet other than the header wallet
is never returned. -/
theorem C3_mismatched_wallet_rejected (cfg : Pylon.GatewayConfig)
    (req : Pylon.UsageRequest) (A B : String)
    (hbyp : Pylon.usageBypassGranted cfg req = false)
    (hA : req.headerWallet = some A) (hAne : A ≠ "")
    (hB : req.queryWallet = some B) (hBne : B ≠ "") :
    (Pylon.lowerStr B ≠ Pylon.lowerStr A →
      Pylon.usageRoute cfg req = .forbidden403) ∧
    (Pylon.lowerStr B = Pylon.lowerStr A →
      Pylon.usageRoute cfg req = .data A) := by
  constructor
  · intro hne
    have hauth : Pylon.usageAuth cfg req = .forbidden := by
      unfold Pylon.usageAuth
      rw [hbyp]
      simp [hA, hB, Pylon.strTruthy, hAne, hBne, beq_eq_false_iff_ne.mpr hne]
    simp [Pylon.usageRoute, hauth]
  · intro heq
    have hauth : Pylon.usageAuth cfg req = .proceed (some A) := by
      unfold Pylon.usageAuth
      rw [hbyp]
      simp [hA, hB, Pylon.strTruthy, hAne, heq]
    simp [Pylon.usageRoute, hauth, Pylon.jsOr, Pylon.strTruthy, hAne, hA]

/-- Witness for the amended C3: a lowercase-distinct query wallet gets
403; a case-variant query wallet gets data scoped to the header wallet. -/
theorem C3_mismatched_wallet_rejected_witness :
    Pylon.usageRoute ⟨none, []⟩ ⟨none, "ip1", some "0xAb", some "0xCd"⟩ =
      .forbidden403 ∧
    Pylon.usageRoute ⟨none, []⟩ ⟨none, "ip1", some "0xAb", some "0xaB"⟩ =
      .data "0xAb" :=
  ⟨(C3_mismatched_wallet_rejected ⟨none, []⟩ ⟨none, "ip1", some "0xAb", some "0xCd"⟩
      "0xAb" "0xCd" (by decide) rfl (by decide) rfl (by decide)).1 (by decide),
   (C3_mismatched_wallet_rejected ⟨none, []⟩ ⟨none, "ip1", some "0xAb", some "0xaB"⟩
      "0xAb" "0xaB" (by decide) rfl (by decide) rfl (by decide)).2 (by decide)⟩

namespace Pylon

/-! ## Reliability layer (`reliability.js`) -/

/-- Result of one `callBackend` invocation that returned (did not throw):
a success envelope carrying the backend HTTP status, or an error envelope
(truthy `error` code) with its `status` field (`0` models a falsy
status). -/
inductive BackendResult
  | ok (backendStatus : Nat)
  | err (code : String) (status : Nat)
  deriving DecidableEq, Repr

/-- `RETRY_DELAYS = [500, 1500, 4500]` (ms): up to three retries after
the immediate first attempt. -/
def RETRY_DELAYS : List Nat := [500, 1500, 4500]

/-- `isRetryable` (`reliability.js` lines 18–25): only an error result
with a truthy status can be retryable; 4xx (including 402) is not,
status ≥ 500 is. -/
def isRetryable : BackendResult → Bool
  | .ok _ => false
  | .err _ status =>
    if status ≠ 0 then
      if 400 ≤ status ∧ status < 500 then false
      else if 500 ≤ status then true
      else false
    else false

/-- What one attempt of the wrapped call did: `callFn` returned a result,
or threw (network/timeout transport error). -/
inductive AttemptOutcome
  | res (r : BackendResult)
  | transport
  deriving DecidableEq, Repr

/-- What the loop body decides for one attempt (`reliability.js` lines
42–91): sleep and retry; surface the result (returned on success, thrown
with `err.result` on a non-retryable error — the wrapper hands back
`err.result` either way); or rethrow the transport error with retries
exhausted. -/
inductive StepDecision
  | retry
  | finish (r : BackendResult)
  | netFail
  deriving DecidableEq, Repr

/-- The per-attempt branching of the retry loop: a returned result is
retried iff `isRetryable` holds and retries remain; a transport error is
retried iff retries remain. -/
def loopStep (o : AttemptOutcome) (attempt : Nat) : StepDecision :=
  match o with
  | .res r =>
    if isRetryable r = true ∧ attempt < RETRY_DELAYS.length then .retry
    else .finish r
  | .transport =>
    if attempt < RETRY_DELAYS.length then .retry else .netFail

/-- Outcome of the whole retry loop: a surfaced backend result (the
wrapper returns it, with `_retries` equal to the index of the surfaced
attempt), or a propagated transport error. -/
inductive RunResult
  | result (r : BackendResult) (retries : Nat)
  | netFail (retries : Nat)
  deriving DecidableEq, Repr

/-- The retry loop of `wrapWithReliability` (`reliability.js` lines
42–102) over an oracle giving each attempt's outcome; `fuel` counts the
attempts still admitted by the `for` bound (`attempt ≤
RETRY_DELAYS.length`). -/
def runAux (attempts : Nat → AttemptOutcome) : Nat → Nat → RunResult
  | 0, a => .netFail a
  | fuel + 1, a =>
    match loopStep (attempts a) a with
    | .retry => runAux attempts fuel (a + 1)
    | .finish r => .result r a
    | .netFail => .netFail a

/-- Run the retry loop from the immediate first attempt. -/
def runReliability (attempts : Nat → AttemptOutcome) : RunResult :=
  runAux attempts (RETRY_DELAYS.length + 1) 0

end Pylon

/-! ## C4 — retry exactly on transport errors and 5xx -/

/-- C4: in the reliability layer a backend outcome is retried iff it is a
transport error or an error result with HTTP status ≥ 500 (and a retry
slot remains in the `[500, 1500, 4500]` schedule); in particular a
result with status in 400–499 is never retried: when the first attempt
returns such a result the loop surfaces it at once with zero retries. -/
theorem C4_retry_iff_transport_or_5xx :
    (∀ (o : Pylon.AttemptOutcome) (a : Nat),
      Pylon.loopStep o a = .retry ↔
        (a < Pylon.RETRY_DELAYS.length ∧
          (o = .transport ∨ ∃ c s, o = .res (.err c s) ∧ 500 ≤ s))) ∧
    (∀ (attempts : Nat → Pylon.AttemptOutcome) (c : String) (s : Nat),
      attempts 0 = .res (.err c s) → 400 ≤ s → s < 500 →
      Pylon.runReliability attempts = .result (.err c s) 0) := by
  constructor
  · intro o a
    constructor
    · intro h
      cases o with
      | transport =>
        simp only [Pylon.loopStep] at h
        by_cases ha : a < Pylon.RETRY_DELAYS.length
        · exact ⟨ha, Or.inl rfl⟩
        · rw [if_neg ha] at h
          exact absurd h (by simp)
      | res r =>
        simp only [Pylon.loopStep] at h
        by_cases hcond : Pylon.isRetryable r = true ∧ a < Pylon.RETRY_DELAYS.length
        · obtain ⟨hr, ha⟩ := hcond
          refine ⟨ha, Or.inr ?_⟩
          cases r with
          | ok st => exact absurd hr (by simp [Pylon.isRetryable])
          | err c s =>
            refine ⟨c, s, rfl, ?_⟩
            simp only [Pylon.isRetryable] at hr
            by_cases h0 : s ≠ 0
            · rw [if_pos h0] at hr
              by_cases h4 : 400 ≤ s ∧ s < 500
              · rw [if_pos h4] at hr
                exact absurd hr (by simp)
              · rw [if_neg h4] at hr
                by_cases h5 : 500 ≤ s
                · exact h5
                · rw [if_neg h5] at hr
                  exact absurd hr (by simp)
            · rw [if_neg h0] at hr
              exact absurd hr (by simp)
        · rw [if_neg hcond] at h
          exact absurd h (by simp)
    · rintro ⟨ha, hcase⟩
      cases hcase with
      | inl ht =>
        subst ht
        simp only [Pylon.loopStep]
        rw [if_pos ha]
      | inr hex =>
        obtain ⟨c, s, heq, hge⟩ := hex
        subst heq
        have hretry : Pylon.isRetryable (.err c s) = true := by
          simp only [Pylon.isRetryable]
          rw [if_pos (by omega : s ≠ 0),
            if_neg (by omega : ¬(400 ≤ s ∧ s < 500)), if_pos hge]
        simp only [Pylon.loopStep]
        rw [if_pos ⟨hretry, ha⟩]
  · intro attempts c s h0 h4 h5
    have hretry0 : Pylon.isRetryable (.err c s) = false := by
      simp only [Pylon.isRetryable]
      rw [if_pos (by omega : s ≠ 0), if_pos (by omega : 400 ≤ s ∧ s < 500)]
    have hstep : Pylon.loopStep (attempts 0) 0 = .finish (.err c s) := by
      rw [h0]
      simp only [Pylon.loopStep, hretry0]
      simp
    show Pylon.runAux attempts (Pylon.RETRY_DELAYS.length + 1) 0 = _
    rw [show Pylon.RETRY_DELAYS.length + 1 = 3 + 1 from rfl]
    simp only [Pylon.runAux, hstep]

/-- Witness for C4: a 503 error on a fresh attempt is retried; a run whose
first attempt yields a 404 error surfaces it with zero retries. -/
theorem C4_retry_iff_transport_or_5xx_witness :
    Pylon.loopStep (.res (.err "backend_error" 503)) 0 = .retry ∧
    Pylon.runReliability (fun _ => .res (.err "backend_error" 404)) =
      .result (.err "backend_error" 404) 0 :=
  ⟨(C4_retry_iff_transport_or_5xx.1 (.res (.err "backend_error" 503)) 0).mpr
      ⟨by decide, Or.inr ⟨"backend_error", 503, rfl, by omega⟩⟩,
   C4_retry_iff_transport_or_5xx.2 (fun _ => .res (.err "backend_error" 404))
      "backend_error" 404 rfl (by omega) (by omega)⟩

namespace Pylon

/-! ## `/do` required-field validation and defaults (`server.js` lines
619–642) -/

/-- Result of the validate-then-default sequence: the 400
`missing_params` body (listing the missing names, the schema and what
was extracted) or the final params handed to the backend call. -/
inductive ValidationResult
  | missingParams (missing : List String) (schema : InputSchema) (extracted : Params)
  | okParams (finalParams : Params)
  deriving DecidableEq, Repr

/-- The `missing` list (`server.js` lines 620–625): required schema
fields whose value in `finalParams` is falsy. -/
def missingRequired (schema : InputSchema) (finalParams : Params) : List String :=
  (schema.filter
    (fun ks => ks.2.required && !(isTruthy (getP finalParams ks.1)))).map Prod.fst

/-- Applying defaults (`server.js` lines 637–642): fields that are
`undefined` and have a schema default are filled in. -/
def applyDefaults (schema : InputSchema) (finalParams : Params) : Params :=
  schema.foldl (fun ps ks =>
    match ks.2.default with
    | some d => if (getP ps ks.1).isNone then setP ps ks.1 d else ps
    | none => ps) finalParams

/-- The `/do` handler's validate-then-default sequence: required fields
are checked first; only when none is missing are schema defaults
applied. -/
def validateAndDefault (schema : InputSchema) (finalParams : Params) :
    ValidationResult :=
  let missing := missingRequired schema finalParams
  if missing ≠ [] then .missingParams missing schema finalParams
  else .okParams (applyDefaults schema finalParams)

end Pylon

/-! ## C5 — defaults versus required-field validation -/

/-- C5 counterexample: a capability whose required field `url` carries a
schema default, dispatched with no extracted params, fails with
`missing_params` naming `url` — the default does not prevent the
failure. -/
theorem C5_counterexample :
    Pylon.validateAndDefault
      [("url", ⟨none, true, some (.vStr "https://example.com")⟩)] [] =
    .missingParams ["url"]
      [("url", ⟨none, true, some (.vStr "https://example.com")⟩)] [] := by
  decide

/-- C5 amended: the `/do` dispatcher validates required fields before
applying schema defaults, so a required input that is absent (falsy) in
the extracted params causes `missing_params` even when it has a schema
default; defaults are applied only on the success path. -/
theorem C5_validation_precedes_defaults (schema : Pylon.InputSchema)
    (params : Pylon.Params) (k : String) (fs : Pylon.FieldSchema)
    (hmem : (k, fs) ∈ schema) (hreq : fs.required = true)
    (habsent : Pylon.isTruthy (Pylon.getP params k) = false) :
    ∃ m, Pylon.validateAndDefault schema params = .missingParams m schema params ∧
      k ∈ m := by
  have hk : k ∈ Pylon.missingRequired schema params := by
    unfold Pylon.missingRequired
    refine List.mem_map.mpr ⟨(k, fs), ?_, rfl⟩
    refine List.mem_filter.mpr ⟨hmem, ?_⟩
    simp [hreq, habsent]
  refine ⟨Pylon.missingRequired schema params, ?_, hk⟩
  unfold Pylon.validateAndDefault
  rw [if_pos (by
    intro hnil
    rw [hnil] at hk
    exact absurd hk (List.not_mem_nil k))]

/-- Witness for the amended C5 at the concrete one-field schema. -/
theorem C5_validation_precedes_defaults_witness :
    ∃ m, Pylon.validateAndDefault
        [("url", ⟨none, true, some (.vStr "https://example.com")⟩)] [] =
      .missingParams m
        [("url", ⟨none, true, some (.vStr "https://example.com")⟩)] [] ∧
      "url" ∈ m :=
  C5_validation_precedes_defaults
    [("url", ⟨none, true, some (.vStr "https://example.com")⟩)] []
    "url" ⟨none, true, some (.vStr "https://example.com")⟩
    (by decide) rfl (by decide)

namespace Pylon

/-! ## Parameter extraction (`server.js`, `extractParams`, lines 248–320)

The regular-expression matching on the task string is abstracted: a
`TaskMatches` record carries the outcome of each of the seven regex
probes of `extractParams`, and the embedding reproduces the assignment
logic exactly.  The extraction property verified here holds for every
possible outcome of the regex probes, hence for every task string. -/

/-- Outcomes of the regex probes `extractParams` runs on the task. -/
structure TaskMatches where
  /-- First match of `https?://…`. -/
  urlMatch : Option String
  /-- First email-address match. -/
  emailMatch : Option String
  /-- First domain-name match (capture group 1). -/
  domainMatch : Option String
  /-- First `N x M` / `N×M` match, as parsed integers. -/
  dimMatch : Option (Nat × Nat)
  /-- First `N px` match, as a parsed integer. -/
  sizeMatch : Option Nat
  /-- Whether `full page` occurs. -/
  fullPage : Bool
  /-- First format token match (`png|jpe?g|webp|pdf`). -/
  formatMatch : Option String
  deriving Repr

/-- `schema.description?.toLowerCase().includes(needle)` with optional
chaining: `false` when the description is absent. -/
def descMentions (desc : Option String) (needle : String) : Bool :=
  match desc with
  | none => false
  | some d => strIncludes (lowerStr d) needle

/-- URL block (lines 251–267): assign the URL to the first field named
`url` or whose description mentions `url`; else to `data` when the schema
declares it. -/
def stageUrl (m : TaskMatches) (schema : InputSchema) (params : Params) :
    Params :=
  match m.urlMatch with
  | none => params
  | some url =>
    match schema.find?
        (fun ks => ks.1 == "url" || descMentions ks.2.description "url") with
    | some ks => setP params ks.1 (.vStr url)
    | none =>
      if schemaHas schema "data" then setP params "data" (.vStr url)
      else params

/-- Email block (lines 269–278): assign to the first field named `email`
or whose description mentions `email`. -/
def stageEmail (m : TaskMatches) (schema : InputSchema) (params : Params) :
    Params :=
  match m.emailMatch with
  | none => params
  | some em =>
    match schema.find?
        (fun ks => ks.1 == "email" || descMentions ks.2.description "email") with
    | some ks => setP params ks.1 (.vStr em)
    | none => params

/-- Domain block (lines 280–293): assign to the first field named
`domain` or whose description mentions `domain`; additionally back-fill
`url` as `https://<domain>` when no URL matched, the schema declares
`url`, and `params.url` is falsy. -/
def stageDomain (m : TaskMatches) (schema : InputSchema) (params : Params) :
    Params :=
  match m.domainMatch with
  | none => params
  | some dom =>
    let params1 :=
      match schema.find?
          (fun ks => ks.1 == "domain" || descMentions ks.2.description "domain") with
      | some ks => setP params ks.1 (.vStr dom)
      | none => params
    if m.urlMatch.isNone && schemaHas schema "url" &&
        !(isTruthy (getP params1 "url")) then
      setP params1 "url" (.vStr ("https://" ++ dom))
    else params1

/-- Dimension block (lines 296–300): `width` and `height` when the schema
declares them. -/
def stageDim (m : TaskMatches) (schema : InputSchema) (params : Params) :
    Params :=
  match m.dimMatch with
  | none => params
  | some (w, h) =>
    let params1 :=
      if schemaHas schema "width" then setP params "width" (.vNat w) else params
    if schemaHas schema "height" then setP params1 "height" (.vNat h)
    else params1

/-- Size block (lines 303–306): `size` when the schema declares it. -/
def stageSize (m : TaskMatches) (schema : InputSchema) (params : Params) :
    Params :=
  match m.sizeMatch with
  | none => params
  | some n =>
    if schemaHas schema "size" then setP params "size" (.vNat n) else params

/-- Full-page block (lines 308–311): `fullPage = true` when the phrase
occurs and the schema declares the field. -/
def stageFullPage (m : TaskMatches) (schema : InputSchema) (params : Params) :
    Params :=
  if m.fullPage && schemaHas schema "fullPage" then
    setP params "fullPage" (.vBool true)
  else params

/-- Format block (lines 313–317): the lowercased format token when the
schema declares `format`. -/
def stageFormat (m : TaskMatches) (schema : InputSchema) (params : Params) :
    Params :=
  match m.formatMatch with
  | none => params
  | some f =>
    if schemaHas schema "format" then setP params "format" (.vStr (lowerStr f))
    else params

/-- `extractParams`: the seven extraction blocks applied in source order
to the initially empty params object. -/
def extractParams (m : TaskMatches) (schema : InputSchema) : Params :=
  stageFormat m schema (stageFullPage m schema (stageSize m schema
    (stageDim m schema (stageDomain m schema (stageEmail m schema
      (stageUrl m schema []))))))

/-! ### Key-tracking lemmas for the extraction stages -/

/-- A key of `setP l k0 v` is `k0` or a key of `l`. -/
theorem keys_setP (l : Params) (k0 : String) (v : Value) (k : String)
    (hk : k ∈ (setP l k0 v).map Prod.fst) :
    k = k0 ∨ k ∈ l.map Prod.fst := by
  unfold setP at hk
  by_cases h : (l.lookup k0).isSome = true
  · rw [if_pos h] at hk
    obtain ⟨x, hx, hfst⟩ := List.mem_map.mp hk
    obtain ⟨kv0, hmem0, rfl⟩ := List.mem_map.mp hx
    by_cases heq : kv0.1 = k0
    · rw [if_pos heq] at hfst
      exact Or.inl hfst.symm
    · rw [if_neg heq] at hfst
      exact Or.inr (List.mem_map.mpr ⟨kv0, hmem0, hfst⟩)
  · rw [if_neg h] at hk
    rw [List.map_append] at hk
    rcases List.mem_append.mp hk with h1 | h2
    · exact Or.inr h1
    · simp at h2
      exact Or.inl h2

/-- A key with a successful lookup is among the keys. -/
theorem mem_keys_of_lookup_isSome {α β : Type _} [BEq α] [LawfulBEq α]
    (l : List (α × β)) (k : α) (h : (l.lookup k).isSome = true) :
    k ∈ l.map Prod.fst := by
  induction l with
  | nil => simp [List.lookup] at h
  | cons kv t ih =>
    obtain ⟨k', v'⟩ := kv
    simp only [List.lookup] at h
    cases hbeq : k == k' with
    | true =>
      simp [beq_iff_eq.mp hbeq]
    | false =>
      rw [hbeq] at h
      exact List.mem_cons_of_mem _ (ih h)

/-- A schema key found by `find?` is among the schema's keys. -/
theorem find?_key_mem (schema : InputSchema) (p : String × FieldSchema → Bool)
    (ks : String × FieldSchema) (h : schema.find? p = some ks) :
    ks.1 ∈ schema.map Prod.fst :=
  List.mem_map.mpr ⟨ks, List.mem_of_find?_eq_some h, rfl⟩

end Pylon

namespace Pylon

/-- Keys added by the URL block are schema keys. -/
theorem stageUrl_keys (m : TaskMatches) (schema : InputSchema) (l : Params)
    (k : String) (hk : k ∈ (stageUrl m schema l).map Prod.fst) :
    k ∈ schema.map Prod.fst ∨ k ∈ l.map Prod.fst := by
  unfold stageUrl at hk
  cases hm : m.urlMatch with
  | none =>
    simp only [hm] at hk
    exact Or.inr hk
  | some url =>
    simp only [hm] at hk
    cases hf : schema.find?
        (fun ks => ks.1 == "url" || descMentions ks.2.description "url") with
    | some ks =>
      simp only [hf] at hk
      rcases keys_setP l ks.1 _ k hk with rfl | h
      · exact Or.inl (find?_key_mem schema _ ks hf)
      · exact Or.inr h
    | none =>
      simp only [hf] at hk
      by_cases hd : schemaHas schema "data" = true
      · rw [if_pos hd] at hk
        rcases keys_setP l "data" _ k hk with rfl | h
        · exact Or.inl (mem_keys_of_lookup_isSome schema _ hd)
        · exact Or.inr h
      · rw [if_neg hd] at hk
        exact Or.inr hk

/-- Keys added by the email block are schema keys. -/
theorem stageEmail_keys (m : TaskMatches) (schema : InputSchema) (l : Params)
    (k : String) (hk : k ∈ (stageEmail m schema l).map Prod.fst) :
    k ∈ schema.map Prod.fst ∨ k ∈ l.map Prod.fst := by
  unfold stageEmail at hk
  cases hm : m.emailMatch with
  | none =>
    simp only [hm] at hk
    exact Or.inr hk
  | some em =>
    simp only [hm] at hk
    cases hf : schema.find?
        (fun ks => ks.1 == "email" || descMentions ks.2.description "email") with
    | some ks =>
      simp only [hf] at hk
      rcases keys_setP l ks.1 _ k hk with rfl | h
      · exact Or.inl (find?_key_mem schema _ ks hf)
      · exact Or.inr h
    | none =>
      simp only [hf] at hk
      exact Or.inr hk

/-- Keys added by the domain block are schema keys. -/
theorem stageDomain_keys (m : TaskMatches) (schema : InputSchema) (l : Params)
    (k : String) (hk : k ∈ (stageDomain m schema l).map Prod.fst) :
    k ∈ schema.map Prod.fst ∨ k ∈ l.map Prod.fst := by
  unfold stageDomain at hk
  cases hm : m.domainMatch with
  | none =>
    simp only [hm] at hk
    exact Or.inr hk
  | some dom =>
    simp only [hm] at hk
    have step1 : ∀ k', k' ∈ ((match schema.find?
        (fun ks => ks.1 == "domain" || descMentions ks.2.description "domain") with
      | some ks => setP l ks.1 (.vStr dom)
      | none => l) : Params).map Prod.fst →
        k' ∈ schema.map Prod.fst ∨ k' ∈ l.map Prod.fst := by
      intro k' hk'
      cases hf : schema.find?
          (fun ks => ks.1 == "domain" || descMentions ks.2.description "domain") with
      | some ks =>
        simp only [hf] at hk'
        rcases keys_setP l ks.1 _ k' hk' with rfl | h
        · exact Or.inl (find?_key_mem schema _ ks hf)
        · exact Or.inr h
      | none =>
        simp only [hf] at hk'
        exact Or.inr hk'
    set params1 : Params := (match schema.find?
        (fun ks => ks.1 == "domain" || descMentions ks.2.description "domain") with
      | some ks => setP l ks.1 (.vStr dom)
      | none => l) with hp1
    by_cases hc : (m.urlMatch.isNone && schemaHas schema "url" &&
        !(isTruthy (getP params1 "url"))) = true
    · rw [if_pos hc] at hk
      rcases keys_setP params1 "url" _ k hk with rfl | h
      · have hurl : schemaHas schema "url" = true := by
          have hc2 := hc
          simp only [Bool.and_eq_true] at hc2
          exact hc2.1.2
        exact Or.inl (mem_keys_of_lookup_isSome schema _ hurl)
      · exact step1 k h
    · rw [if_neg hc] at hk
      exact step1 k hk

/-- Keys added by the dimension block are schema keys. -/
theorem stageDim_keys (m : TaskMatches) (schema : InputSchema) (l : Params)
    (k : String) (hk : k ∈ (stageDim m schema l).map Prod.fst) :
    k ∈ schema.map Prod.fst ∨ k ∈ l.map Prod.fst := by
  unfold stageDim at hk
  cases hm : m.dimMatch with
  | none =>
    simp only [hm] at hk
    exact Or.inr hk
  | some wh =>
    obtain ⟨w, h⟩ := wh
    simp only [hm] at hk
    set params1 : Params :=
      (if schemaHas schema "width" then setP l "width" (.vNat w) else l) with hp1
    have step1 : ∀ k', k' ∈ params1.map Prod.fst →
        k' ∈ schema.map Prod.fst ∨ k' ∈ l.map Prod.fst := by
      intro k' hk'
      rw [hp1] at hk'
      by_cases hw : schemaHas schema "width" = true
      · rw [if_pos hw] at hk'
        rcases keys_setP l "width" _ k' hk' with rfl | hmem
        · exact Or.inl (mem_keys_of_lookup_isSome schema _ hw)
        · exact Or.inr hmem
      · rw [if_neg hw] at hk'
        exact Or.inr hk'
    by_cases hh : schemaHas schema "height" = true
    · rw [if_pos hh] at hk
      rcases keys_setP params1 "height" _ k hk with rfl | hmem
      · exact Or.inl (mem_keys_of_lookup_isSome schema _ hh)
      · exact step1 k hmem
    · rw [if_neg hh] at hk
      exact step1 k hk

/-- Keys added by the size block are schema keys. -/
theorem stageSize_keys (m : TaskMatches) (schema : InputSchema) (l : Params)
    (k : String) (hk : k ∈ (stageSize m schema l).map Prod.fst) :
    k ∈ schema.map Prod.fst ∨ k ∈ l.map Prod.fst := by
  unfold stageSize at hk
  cases hm : m.sizeMatch with
  | none =>
    simp only [hm] at hk
    exact Or.inr hk
  | some n =>
    simp only [hm] at hk
    by_cases hs : schemaHas schema "size" = true
    · rw [if_pos hs] at hk
      rcases keys_setP l "size" _ k hk with rfl | hmem
      · exact Or.inl (mem_keys_of_lookup_isSome schema _ hs)
      · exact Or.inr hmem
    · rw [if_neg hs] at hk
      exact Or.inr hk

/-- Keys added by the full-page block are schema keys. -/
theorem stageFullPage_keys (m : TaskMatches) (schema : InputSchema) (l : Params)
    (k : String) (hk : k ∈ (stageFullPage m schema l).map Prod.fst) :
    k ∈ schema.map Prod.fst ∨ k ∈ l.map Prod.fst := by
  unfold stageFullPage at hk
  by_cases hc : (m.fullPage && schemaHas schema "fullPage") = true
  · rw [if_pos hc] at hk
    rcases keys_setP l "fullPage" _ k hk with rfl | hmem
    · have hfp : schemaHas schema "fullPage" = true := by
        have hc2 := hc
        simp only [Bool.and_eq_true] at hc2
        exact hc2.2
      exact Or.inl (mem_keys_of_lookup_isSome schema _ hfp)
    · exact Or.inr hmem
  · rw [if_neg hc] at hk
    exact Or.inr hk

/-- Keys added by the format block are schema keys. -/
theorem stageFormat_keys (m : TaskMatches) (schema : InputSchema) (l : Params)
    (k : String) (hk : k ∈ (stageFormat m schema l).map Prod.fst) :
    k ∈ schema.map Prod.fst ∨ k ∈ l.map Prod.fst := by
  unfold stageFormat at hk
  cases hm : m.formatMatch with
  | none =>
    simp only [hm] at hk
    exact Or.inr hk
  | some f =>
    simp only [hm] at hk
    by_cases hs : schemaHas schema "format" = true
    · rw [if_pos hs] at hk
      rcases keys_setP l "format" _ k hk with rfl | hmem
      · exact Or.inl (mem_keys_of_lookup_isSome schema _ hs)
      · exact Or.inr hmem
    · rw [if_neg hs] at hk
      exact Or.inr hk

end Pylon

/-! ## C9 — extraction never invents parameters -/

/-- C9: for every outcome of the regex probes on the task (hence for
every task string) and every capability schema, every parameter name in
the object returned by `extractParams` is a key declared by the
capability's `inputSchema`. -/
theorem C9_extracted_keys_in_schema (m : Pylon.TaskMatches)
    (schema : Pylon.InputSchema) (k : String)
    (hk : k ∈ (Pylon.extractParams m schema).map Prod.fst) :
    k ∈ schema.map Prod.fst := by
  unfold Pylon.extractParams at hk
  rcases Pylon.stageFormat_keys m schema _ k hk with h | hk
  · exact h
  rcases Pylon.stageFullPage_keys m schema _ k hk with h | hk
  · exact h
  rcases Pylon.stageSize_keys m schema _ k hk with h | hk
  · exact h
  rcases Pylon.stageDim_keys m schema _ k hk with h | hk
  · exact h
  rcases Pylon.stageDomain_keys m schema _ k hk with h | hk
  · exact h
  rcases Pylon.stageEmail_keys m schema _ k hk with h | hk
  · exact h
  rcases Pylon.stageUrl_keys m schema _ k hk with h | hk
  · exact h
  simp at hk

/-- Witness for C9: a URL-bearing task against a one-field schema
extracts exactly the declared `url` parameter. -/
theorem C9_extracted_keys_in_schema_witness :
    "url" ∈ ([("url", (⟨some "The URL to fetch", true, none⟩ : Pylon.FieldSchema))] :
      Pylon.InputSchema).map Prod.fst :=
  C9_extracted_keys_in_schema
    ⟨some "https://example.com", none, none, none, none, false, none⟩
    [("url", ⟨some "The URL to fetch", true, none⟩)] "url" (by decide)

namespace Pylon

/-! ## JSON values (backend response payloads and chain step results) -/

/-- A JSON value, as carried in backend `data` payloads and chain step
results. -/
inductive Json
  | str (s : String)
  | num (q : ℚ)
  | jbool (b : Bool)
  | null
  | obj (fields : List (String × Json))
  | arr (items : List Json)

/-! ## `/do` backend-call handler and usage logging (`server.js` lines
644–728, `usage.js` lines 34–37) -/

/-- One row appended to `usage_log` by `logUsage` (`usage.js` lines
34–37): wallet, capability, parsed cost, success flag, latency. -/
structure UsageRecord where
  wallet : String
  capabilityId : String
  cost : ℚ
  success : Bool
  latencyMs : Nat
  deriving DecidableEq, Repr

/-- The backend-call result object as read by the `/do` handler: an error
envelope (`error`, `message`, optional `status`, optional `_retries`) or
a success envelope (`data`, `contentType`, `durationMs`, `backendStatus`,
`_retries`). -/
inductive DoResult
  | err (code : String) (message : String) (status : Option Nat)
      (retries : Option Nat)
  | ok (data : Json) (contentType : String) (durationMs : Nat)
      (backendStatus : Nat) (retries : Nat)

/-- How the awaited backend call ended: the promise resolved with a
result, or rejected (threw). -/
inductive CallOutcome
  | ret (r : DoResult)
  | threw

/-- `result.status || 500`: a missing or zero status falls back to 500. -/
def statusOr500 : Option Nat → Nat
  | none => 500
  | some s => if s = 0 then 500 else s

/-- The response the handler sends. -/
inductive DoResponse
  /-- `res.status(result.status ∥ 500).json({error, message, …})`. -/
  | errorJson (status : Nat) (code : String)
  /-- The 200 success payload (capability id and result data shown). -/
  | successJson (capabilityId : String) (data : Json)
  /-- The 502 `backend_unavailable` body of the catch block. -/
  | backendUnavailable502

/-- The backend-call section of the `/do` handler (`server.js` lines
644–728): on an error result, respond with its status (no usage write);
on success, append one usage record with `success = true` (wallet from
the `x-wallet-address` header, else the payment payload, else
`"anonymous"`) and respond 200; when the call threw, append one usage
record with `success = false` (wallet from the header, else
`"anonymous"`) and respond 502.  Returns the response and the usage
records appended. -/
def dispatchBackendSection (matched : Capability) (headerWallet : Option String)
    (paymentPayload : Option String) (totalDurationMs : Nat)
    (outcome : CallOutcome) : DoResponse × List UsageRecord :=
  match outcome with
  | .ret (.err code _ status _) =>
    (.errorJson (statusOr500 status) code, [])
  | .ret (.ok data _ _ _ _) =>
    let walletAddr :=
      (jsOr (jsOr headerWallet paymentPayload) (some "anonymous")).getD "anonymous"
    (.successJson matched.id data,
     [⟨walletAddr, matched.id, matched.cost, true, totalDurationMs⟩])
  | .threw =>
    let walletAddr := (jsOr headerWallet (some "anonymous")).getD "anonymous"
    (.backendUnavailable502,
     [⟨walletAddr, matched.id, matched.cost, false, totalDurationMs⟩])

end Pylon

/-! ## C1 — usage records per completed dispatch -/

/-- C1 counterexample: a `/do` dispatch whose backend call returns an
error result (here `backend_error` with status 500) sends the error
response and appends no usage record at all — not one with
`success = false`. -/
theorem C1_counterexample :
    Pylon.dispatchBackendSection ⟨"screenshot", 1/100, []⟩
      (some "0xCALLER") none 120
      (.ret (.err "backend_error" "boom" (some 500) none)) =
    (.errorJson 500 "backend_error", []) := by
  rfl

/-- C1 amended: the `/do` handler appends exactly one usage record with
`success = true` when the backend call succeeds, and exactly one with
`success = false` when the backend call throws; a backend call that
returns an error result appends no usage record. -/
theorem C1_usage_record_per_outcome (matched : Pylon.Capability)
    (headerWallet paymentPayload : Option String) (totalDurationMs : Nat) :
    (∀ data ct dur bs rts, ∃ w,
      (Pylon.dispatchBackendSection matched headerWallet paymentPayload
        totalDurationMs (.ret (.ok data ct dur bs rts))).2 =
      [⟨w, matched.id, matched.cost, true, totalDurationMs⟩]) ∧
    (∃ w,
      (Pylon.dispatchBackendSection matched headerWallet paymentPayload
        totalDurationMs .threw).2 =
      [⟨w, matched.id, matched.cost, false, totalDurationMs⟩]) ∧
    (∀ code msg status rts,
      (Pylon.dispatchBackendSection matched headerWallet paymentPayload
        totalDurationMs (.ret (.err code msg status rts))).2 = []) :=
  ⟨fun _ _ _ _ _ => ⟨_, rfl⟩, ⟨_, rfl⟩, fun _ _ _ _ => rfl⟩

namespace Pylon

/-! ## Orchestrator chain execution (`orchestrator.js`) -/

/-- `TOTAL_TIMEOUT_MS = 120_000`. -/
def TOTAL_TIMEOUT_MS : Nat := 120000

/-- Chain-step params: name ↦ JSON value (step params can carry whole
objects piped from earlier steps). -/
abbrev JParams := List (String × Json)

/-- `params[k] = v` on a chain-step params object. -/
def jsetP (l : JParams) (k : String) (v : Json) : JParams :=
  if (l.lookup k).isSome then
    l.map (fun kv => if kv.1 = k then (k, v) else kv)
  else l ++ [(k, v)]

/-- A schema default value as a JSON value. -/
def valueToJson : Value → Json
  | .vStr s => .str s
  | .vNat n => .num n
  | .vBool b => .jbool b

/-- The numeric value of a digit string. -/
def natOfDigits (s : String) : Nat :=
  s.data.foldl (fun n c => n * 10 + (c.toNat - 48)) 0

/-- Parse `^steps\[(\d+)\]\.(.+)$`: the step index and the dotted rest. -/
def parseStepsPath (path : String) : Option (Nat × String) :=
  if path.startsWith "steps[" then
    let rest := path.drop 6
    let digits := rest.takeWhile Char.isDigit
    let after := rest.drop digits.length
    if digits ≠ "" ∧ after.startsWith "]." ∧ after.drop 2 ≠ "" then
      some (natOfDigits digits, after.drop 2)
    else none
  else none

/-- A canonical JS array index (all digits, no leading zero). -/
def canonIndex (k : String) : Option Nat :=
  if k.length > 0 ∧ k.data.all Char.isDigit ∧
      (k = "0" ∨ k.data.head? ≠ some '0') then
    some (natOfDigits k)
  else none

/-- JS `typeof obj === "object" && obj !== null` for a JSON value. -/
def isObjectType : Json → Bool
  | .obj _ => true
  | .arr _ => true
  | _ => false

/-- JS `obj[key]` on an object-typed JSON value; `none` is `undefined`. -/
def jsonIndex (j : Json) (k : String) : Option Json :=
  match j with
  | .obj fields => fields.lookup k
  | .arr items =>
    match canonIndex k with
    | some i => items.get? i
    | none => none
  | _ => none

/-- The `for (const key of rest.split("."))` walk of `resolvePath`:
bail out with `undefined` on null/non-object, else index. -/
def walkPath : List String → Option Json → Option Json
  | [], o => o
  | _ :: _, none => none
  | k :: rest, some j =>
    if isObjectType j then walkPath rest (jsonIndex j k) else none

/-- `resolvePath` (`orchestrator.js` lines 15–27): parse the
`steps[N].…` shape, fetch the prior step record, walk the dotted path. -/
def resolvePath (path : String) (stepResults : List Json) : Option Json :=
  match parseStepsPath path with
  | none => none
  | some (stepIdx, rest) =>
    match stepResults.get? stepIdx with
    | none => none
    | some obj => walkPath (rest.splitOn ".") (some obj)

/-- One planned chain step: capability id, literal params, input mapping
(param name ↦ dotted path). -/
structure ChainStep where
  capabilityId : String
  params : JParams
  inputMapping : List (String × String)

/-- One entry of the chain response's `costBreakdown`. -/
structure CostEntry where
  step : Nat
  capabilityId : String
  cost : ℚ
  durationMs : Nat

/-- The backend result fields the chain loop reads. -/
inductive ChainResult
  | errR (code message : String)
  | okR (data : Json) (contentType : String)

/-- How one chain step's backend call ended. -/
inductive ChainStepOutcome
  | ret (r : ChainResult)
  | threw (message : String)

/-- Oracles for the chain run: each step's backend outcome (a function of
the step index and the params sent), the wall-clock elapsed at each loop
top, each step's duration and the final total duration. -/
structure ChainEnv where
  call : Nat → JParams → ChainStepOutcome
  elapsedAt : Nat → Nat
  stepDuration : Nat → Nat
  totalDuration : Nat

/-- The value `executePlan` resolves with (or the crash when a planned
capability id is not in the registry — `capabilities.find` yields
`undefined` and the property access throws out of `executePlan`). -/
inductive ChainOutcome
  | totalTimeout (completedSteps : Nat) (stepResults : List Json)
      (costBreakdown : List CostEntry)
  | stepFailed (failedStep : Nat) (stepResults : List Json)
      (costBreakdown : List CostEntry)
  | stepError (failedStep : Nat) (stepResults : List Json)
      (costBreakdown : List CostEntry)
  | crashed
  | success (finalResult : Option Json) (allSteps : List Json)
      (costBreakdown : List CostEntry) (totalCost : ℚ) (totalDurationMs : Nat)

/-- `x.toFixed(3)` on the money values at play: round to the nearest
thousandth. -/
def jsToFixed3 (q : ℚ) : ℚ := (round (q * 1000) : ℚ) / 1000

/-- Build one step's params (`orchestrator.js` lines 171–185): start from
the literal `step.params`, overlay resolvable input mappings, then fill
schema defaults for absent fields. -/
def buildChainParams (cap : Capability) (step : ChainStep)
    (stepResults : List Json) : JParams :=
  let params1 := step.inputMapping.foldl (fun ps kv =>
    match resolvePath kv.2 stepResults with
    | some v => jsetP ps kv.1 v
    | none => ps) step.params
  cap.inputSchema.foldl (fun ps ks =>
    match ks.2.default with
    | some d =>
      if (ps.lookup ks.1).isNone then jsetP ps ks.1 (valueToJson d)
      else ps
    | none => ps) params1

/-- The step loop of `executePlan` (`orchestrator.js` lines 156–232):
total-timeout check, capability lookup, params built as literal params ←
input mapping ← schema defaults, the backend call, and the accumulation
of step results and cost breakdown; on normal exit, `totalCost` is the
reduce-sum of the breakdown costs rendered with `toFixed(3)`. -/
def executeSteps (env : ChainEnv) (caps : List Capability) :
    List ChainStep → Nat → List Json → List CostEntry → ChainOutcome
  | [], _, stepResults, costBreakdown =>
    .success stepResults.getLast? stepResults costBreakdown
      (jsToFixed3 (costBreakdown.foldl (fun acc e => acc + e.cost) 0))
      env.totalDuration
  | step :: rest, i, stepResults, costBreakdown =>
    if env.elapsedAt i > TOTAL_TIMEOUT_MS then
      .totalTimeout i stepResults costBreakdown
    else
      match caps.find? (fun c => c.id == step.capabilityId) with
      | none => .crashed
      | some cap =>
        match env.call i (buildChainParams cap step stepResults) with
        | .threw _ => .stepError i stepResults costBreakdown
        | .ret (.errR _ _) => .stepFailed i stepResults costBreakdown
        | .ret (.okR data ct) =>
          executeSteps env caps rest (i + 1)
            (stepResults ++ [.obj [("result", data), ("contentType", .str ct),
              ("durationMs", .num (env.stepDuration i))]])
            (costBreakdown ++ [⟨i, step.capabilityId, cap.cost,
              env.stepDuration i⟩])

/-- `executePlan`: run the loop from step 0 with empty accumulators. -/
def executePlan (env : ChainEnv) (caps : List Capability)
    (plan : List ChainStep) : ChainOutcome :=
  executeSteps env caps plan 0 [] []

/-! ### Cost-accounting lemmas -/

/-- The source's reduce-sum of breakdown costs is the sum of the cost
column. -/
theorem foldl_add_costs (cb : List CostEntry) (a : ℚ) :
    cb.foldl (fun acc e => acc + e.cost) a = a + (cb.map CostEntry.cost).sum := by
  induction cb generalizing a with
  | nil => simp
  | cons e t ih =>
    simp only [List.foldl_cons, List.map_cons, List.sum_cons]
    rw [ih]
    ring

/-- A sum of integral multiples of 1/1000 is one. -/
theorem sum_thousandths (l : List ℚ)
    (h : ∀ q ∈ l, ∃ n : ℤ, q = (n : ℚ) / 1000) :
    ∃ N : ℤ, l.sum = (N : ℚ) / 1000 := by
  induction l with
  | nil => exact ⟨0, by simp⟩
  | cons q t ih =>
    obtain ⟨n, hn⟩ := h q (List.mem_cons_self q t)
    obtain ⟨N, hN⟩ := ih (fun q' hq' => h q' (List.mem_cons_of_mem q hq'))
    refine ⟨n + N, ?_⟩
    rw [List.sum_cons, hn, hN]
    push_cast
    ring

/-- `toFixed(3)` is the identity on integral multiples of 1/1000. -/
theorem jsToFixed3_thousandth (n : ℤ) :
    jsToFixed3 ((n : ℚ) / 1000) = (n : ℚ) / 1000 := by
  unfold jsToFixed3
  have h : ((n : ℚ) / 1000) * 1000 = (n : ℚ) := by
    field_simp
  rw [h, round_intCast]

/-- The loop invariant: when the loop ends in success and every
capability cost (and every cost already accumulated) is an integral
multiple of $0.001, the reported total equals the exact sum of the
breakdown's costs. -/
theorem executeSteps_total_eq_sum (env : ChainEnv) (caps : List Capability)
    (hq : ∀ c ∈ caps, ∃ n : ℤ, c.cost = (n : ℚ) / 1000) :
    ∀ (steps : List ChainStep) (i : Nat) (srs : List Json)
      (cb0 : List CostEntry),
      (∀ e ∈ cb0, ∃ n : ℤ, e.cost = (n : ℚ) / 1000) →
      ∀ fr allSteps cb tc td,
        executeSteps env caps steps i srs cb0 = .success fr allSteps cb tc td →
        tc = (cb.map CostEntry.cost).sum := by
  intro steps
  induction steps with
  | nil =>
    intro i srs cb0 hcb0 fr allSteps cb tc td hrun
    simp only [executeSteps] at hrun
    obtain ⟨hfr, hall, hcb, htc, htd⟩ :=
      ChainOutcome.success.inj hrun
    subst hcb
    rw [← htc, foldl_add_costs, zero_add]
    obtain ⟨N, hN⟩ := sum_thousandths (cb0.map CostEntry.cost) (by
      intro q hqmem
      obtain ⟨e, he, rfl⟩ := List.mem_map.mp hqmem
      exact hcb0 e he)
    rw [hN, jsToFixed3_thousandth]
  | cons step rest ih =>
    intro i srs cb0 hcb0 fr allSteps cb tc td hrun
    simp only [executeSteps] at hrun
    by_cases htime : env.elapsedAt i > TOTAL_TIMEOUT_MS
    · rw [if_pos htime] at hrun
      exact absurd hrun (by simp)
    · rw [if_neg htime] at hrun
      cases hfind : caps.find? (fun c => c.id == step.capabilityId) with
      | none =>
        simp only [hfind] at hrun
        exact absurd hrun (by simp)
      | some cap =>
        simp only [hfind] at hrun
        cases hcall : env.call i (buildChainParams cap step srs) with
        | threw msg =>
          rw [hcall] at hrun
          exact absurd hrun (by simp)
        | ret r =>
          rw [hcall] at hrun
          cases r with
          | errR code msg =>
            exact absurd hrun (by simp)
          | okR data ct =>
            refine ih (i + 1) _ _ ?_ fr allSteps cb tc td hrun
            intro e he
            rcases List.mem_append.mp he with hmem | hmem
            · exact hcb0 e hmem
            · simp only [List.mem_singleton] at hmem
              subst hmem
              exact hq cap (List.mem_of_find?_eq_some hfind)

end Pylon

/-! ## C8 — chain total cost equals the breakdown sum -/

/-- C8: for every successful chain execution whose capability registry
prices every capability at an integral multiple of $0.001 (as the
shipped registry does), the `totalCost` of the response equals the sum
of the per-step costs listed in its `costBreakdown`. -/
theorem C8_chain_total_eq_breakdown_sum (env : Pylon.ChainEnv)
    (caps : List Pylon.Capability) (plan : List Pylon.ChainStep)
    (hq : ∀ c ∈ caps, ∃ n : ℤ, c.cost = (n : ℚ) / 1000)
    (fr : Option Pylon.Json) (allSteps : List Pylon.Json)
    (cb : List Pylon.CostEntry) (tc : ℚ) (td : Nat)
    (hrun : Pylon.executePlan env caps plan = .success fr allSteps cb tc td) :
    tc = (cb.map Pylon.CostEntry.cost).sum :=
  Pylon.executeSteps_total_eq_sum env caps hq plan 0 [] []
    (by intro e he; exact absurd he (List.not_mem_nil e))
    fr allSteps cb tc td hrun

/-- Witness for C8: a concrete one-step chain priced at $0.005 reports a
total equal to the breakdown sum. -/
theorem C8_chain_total_eq_breakdown_sum_witness :
    Pylon.jsToFixed3 (List.foldl (fun acc e => acc + e.cost) 0
        [(⟨0, "scrape", 1/200, 7⟩ : Pylon.CostEntry)]) =
      (([(⟨0, "scrape", 1/200, 7⟩ : Pylon.CostEntry)]).map
        Pylon.CostEntry.cost).sum := by
  have hrun : Pylon.executePlan
      ⟨fun _ _ => .ret (.okR .null "application/json"), fun _ => 0, fun _ => 7, 9⟩
      [⟨"scrape", 1/200, []⟩] [⟨"scrape", [], []⟩] =
      .success
        (some (.obj [("result", .null), ("contentType", .str "application/json"),
          ("durationMs", .num ((7 : Nat) : ℚ))]))
        [.obj [("result", .null), ("contentType", .str "application/json"),
          ("durationMs", .num ((7 : Nat) : ℚ))]]
        [⟨0, "scrape", 1/200, 7⟩]
        (Pylon.jsToFixed3 (List.foldl (fun acc e => acc + e.cost) 0
          [(⟨0, "scrape", 1/200, 7⟩ : Pylon.CostEntry)]))
        9 := by
    have hfind : List.find? (fun c => c.id == "scrape")
        [(⟨"scrape", 1/200, []⟩ : Pylon.Capability)] =
        some ⟨"scrape", 1/200, []⟩ := rfl
    simp only [Pylon.executePlan, Pylon.executeSteps, Pylon.buildChainParams]
    rw [if_neg (by norm_num [Pylon.TOTAL_TIMEOUT_MS] :
      ¬((0 : Nat) > Pylon.TOTAL_TIMEOUT_MS))]
    simp only [hfind]
    rfl
  exact C8_chain_total_eq_breakdown_sum _ _ _
    (by
      intro c hc
      rw [List.mem_singleton] at hc
      subst hc
      exact ⟨5, by norm_num⟩)
    _ _ _ _ _ hrun
